import Mathlib

/-!
Verification of `flake-info/src/data/source.rs`: the `Source` data model,
its query-string attribute encoding, locator construction via
`to_flake_ref`, the sources-file reader, and the channel resolver.

Rust strings are embedded as Lean `String`, `u64` as `Nat` (the claims
involve no overflow behaviour), `Option<T>` as `Option T`, and fallible
operations as `Except`.  The serde text layer (serde_json / toml), the
file system, and the HTTP transport are external to the repository's
source; they are modelled from the spec as structured documents
(`Json`), an explicit contents map, and an explicit request/response
pair, as marked on each such definition.
-/

/-- Rust `type Hash = String`. -/
abbrev Hash := String

/-- Rust `type FlakeRef = String`. -/
abbrev FlakeRef := String

/-- The optional locator attributes, from `struct FlakeRefAttrs` in
`source.rs` (fields `ref`, `rev`, `dir`, `nar_hash`, `rev_count`,
`last_modified`, all `Option`). -/
structure FlakeRefAttrs where
  ref : Option String := none
  rev : Option Hash := none
  dir : Option String := none
  nar_hash : Option Hash := none
  rev_count : Option Nat := none
  last_modified : Option Nat := none
deriving DecidableEq, Repr

/-- Embedding of `FlakeRefAttrs::query_string`: push one `key=value`
string per present field onto `params` (in source order), then return
`""` if `params` is empty and `"?" ++ join "&"` otherwise.  Rust
`format!("ref={}", v)` is embedded as string append; `format!` of a
`u64` prints its decimal digits, embedded as `toString`. -/
def FlakeRefAttrs.query_string (a : FlakeRefAttrs) : String :=
  let params : List String := []
  let params := match a.ref with
    | some git_ref => params ++ ["ref=" ++ git_ref]
    | none => params
  let params := match a.rev with
    | some rev => params ++ ["rev=" ++ rev]
    | none => params
  let params := match a.dir with
    | some dir => params ++ ["dir=" ++ dir]
    | none => params
  let params := match a.nar_hash with
    | some nar_hash => params ++ ["narHash=" ++ nar_hash]
    | none => params
  let params := match a.rev_count with
    | some rev_count => params ++ ["revCount=" ++ toString rev_count]
    | none => params
  let params := match a.last_modified with
    | some last_modified => params ++ ["lastModified=" ++ toString last_modified]
    | none => params
  if params.isEmpty then "" else "?" ++ String.intercalate "&" params

/-- Embedding of `FlakeRefAttrs::append_to`.  Rust
`base.contains('?')` is embedded as char membership in the string's
character list, and the byte slice `&query[1..]` (the query minus its
leading one-byte `'?'`) as `query.drop 1`. -/
def FlakeRefAttrs.append_to (a : FlakeRefAttrs) (base : String) : String :=
  let query := a.query_string
  if query.isEmpty then base
  else if base.data.contains '?' then base ++ "&" ++ query.drop 1
  else base ++ query

/-- Rust `struct Nixpkgs { channel, git_ref }`. -/
structure Nixpkgs where
  channel : String
  git_ref : String
deriving DecidableEq, Repr

/-- Rust `enum Source`, with its five variants and their fields. -/
inductive Source where
  | github (owner : String) (repo : String) (description : Option String)
      (attrs : FlakeRefAttrs)
  | gitlab (owner : String) (repo : String) (attrs : FlakeRefAttrs)
  | sourcehut (owner : String) (repo : String) (attrs : FlakeRefAttrs)
  | git (url : String) (attrs : FlakeRefAttrs)
  | nixpkgs (np : Nixpkgs)
deriving DecidableEq, Repr

/-- Rust `struct TomlDocument { sources: Vec<Source> }`. -/
structure TomlDocument where
  sources : List Source
deriving DecidableEq, Repr

/-- Embedding of `Source::to_flake_ref`; Rust `format!` interpolation is
embedded as string append. -/
def Source.to_flake_ref : Source → FlakeRef
  | .github owner repo _ attrs =>
      attrs.append_to ("github:" ++ owner ++ "/" ++ repo)
  | .gitlab owner repo attrs =>
      attrs.append_to ("gitlab:" ++ owner ++ "/" ++ repo)
  | .sourcehut owner repo attrs =>
      attrs.append_to ("sourcehut:" ++ owner ++ "/" ++ repo)
  | .git url attrs => attrs.append_to url
  | .nixpkgs np =>
      "https://api.github.com/repos/NixOS/nixpkgs/tarball/" ++ np.git_ref

/-- The query pairs as the spec describes them: one `key=value` pair per
present field, in the fixed order ref, rev, dir, narHash, revCount,
lastModified, with absent fields omitted. -/
def specQueryPairs (a : FlakeRefAttrs) : List String :=
  [a.ref.map (fun v => "ref=" ++ v),
   a.rev.map (fun v => "rev=" ++ v),
   a.dir.map (fun v => "dir=" ++ v),
   a.nar_hash.map (fun v => "narHash=" ++ v),
   a.rev_count.map (fun v => "revCount=" ++ toString v),
   a.last_modified.map (fun v => "lastModified=" ++ toString v)].filterMap id

/-- Number of occurrences of the character `?` in a string. -/
def countQ (s : String) : Nat := s.data.count '?'

/-- Every present attribute value renders without a `?` character (the
numeric fields render via their decimal digits). -/
def valuesNoQ (a : FlakeRefAttrs) : Bool :=
  a.ref.all (fun v => countQ v == 0) && a.rev.all (fun v => countQ v == 0) &&
  a.dir.all (fun v => countQ v == 0) && a.nar_hash.all (fun v => countQ v == 0) &&
  a.rev_count.all (fun n => countQ (toString n) == 0) &&
  a.last_modified.all (fun n => countQ (toString n) == 0)

/-- Modelled from the spec: the structured document values that the
external serde text layer (serde_json / toml, not part of this
repository's source) produces and consumes. -/
inductive Json where
  | null
  | str (s : String)
  | num (n : Nat)
  | obj (fields : List (String × Json))
  | arr (elems : List Json)

/-- Modelled from the spec: serde serializes `Option` string fields as
the value or null. -/
def optStrJson : Option String → Json
  | some s => .str s
  | none => .null

/-- Modelled from the spec: serde serializes `Option` integer fields as
the value or null. -/
def optNumJson : Option Nat → Json
  | some n => .num n
  | none => .null

/-- Modelled from the spec: the serde serialization of `FlakeRefAttrs`,
with the renamed keys `narHash`, `revCount`, `lastModified` from the
field attributes in `source.rs`. -/
def serializeAttrs (a : FlakeRefAttrs) : List (String × Json) :=
  [("ref", optStrJson a.ref), ("rev", optStrJson a.rev),
   ("dir", optStrJson a.dir), ("narHash", optStrJson a.nar_hash),
   ("revCount", optNumJson a.rev_count),
   ("lastModified", optNumJson a.last_modified)]

/-- Modelled from the spec: the serde serialization of `Source` — an
internally tagged object whose `type` field carries the lowercase
variant tag, with the variant fields and the flattened attrs. -/
def Source.serialize : Source → Json
  | .github owner repo description attrs =>
      .obj ([("type", .str "github"), ("owner", .str owner), ("repo", .str repo),
        ("description", optStrJson description)] ++ serializeAttrs attrs)
  | .gitlab owner repo attrs =>
      .obj ([("type", .str "gitlab"), ("owner", .str owner), ("repo", .str repo)]
        ++ serializeAttrs attrs)
  | .sourcehut owner repo attrs =>
      .obj ([("type", .str "sourcehut"), ("owner", .str owner), ("repo", .str repo)]
        ++ serializeAttrs attrs)
  | .git url attrs =>
      .obj ([("type", .str "git"), ("url", .str url)] ++ serializeAttrs attrs)
  | .nixpkgs np =>
      .obj [("type", .str "nixpkgs"), ("channel", .str np.channel),
        ("git_ref", .str np.git_ref)]

/-- Modelled from the spec: deserializing an optional string field from
its document value (absence is handled by the caller). -/
def jOptStr : Json → Except String (Option String)
  | .null => .ok none
  | .str s => .ok (some s)
  | _ => .error "expected a string or null"

/-- Modelled from the spec: deserializing an optional integer field from
its document value (absence is handled by the caller). -/
def jOptNum : Json → Except String (Option Nat)
  | .null => .ok none
  | .num n => .ok (some n)
  | _ => .error "expected an integer or null"

/-- Modelled from the spec: read an optional string field of an object;
an absent or null field is `none`. -/
def optField (fs : List (String × Json)) (k : String) :
    Except String (Option String) :=
  match fs.lookup k with
  | none => .ok none
  | some j => jOptStr j

/-- Modelled from the spec: read an optional integer field of an object;
an absent or null field is `none`. -/
def optFieldNum (fs : List (String × Json)) (k : String) :
    Except String (Option Nat) :=
  match fs.lookup k with
  | none => .ok none
  | some j => jOptNum j

/-- Modelled from the spec: read an optional string field that serde
accepts under a primary key `k` or an alias key `a` interchangeably. -/
def optFieldAlias (fs : List (String × Json)) (k a : String) :
    Except String (Option String) :=
  match (fs.lookup k).orElse (fun _ => fs.lookup a) with
  | none => .ok none
  | some j => jOptStr j

/-- Modelled from the spec: read a required string field of an object. -/
def reqStr (fs : List (String × Json)) (k : String) : Except String String :=
  match fs.lookup k with
  | some (.str s) => .ok s
  | some _ => .error ("field is not a string: " ++ k)
  | none => .error ("missing field: " ++ k)

/-- Modelled from the spec: the serde deserialization of the flattened
`FlakeRefAttrs`, accepting the alias `git_ref` for `ref` and the alias
`hash` for `rev`, per the field attributes in `source.rs`. -/
def deserializeAttrs (fs : List (String × Json)) : Except String FlakeRefAttrs := do
  let r ← optFieldAlias fs "ref" "git_ref"
  let rv ← optFieldAlias fs "rev" "hash"
  let d ← optField fs "dir"
  let nh ← optField fs "narHash"
  let rc ← optFieldNum fs "revCount"
  let lm ← optFieldNum fs "lastModified"
  pure { ref := r, rev := rv, dir := d, nar_hash := nh,
         rev_count := rc, last_modified := lm }

/-- Modelled from the spec: the serde deserialization of `Source`,
dispatching on the lowercase `type` tag over the closed variant set and
failing on anything outside it. -/
def deserializeSource (j : Json) : Except String Source :=
  match j with
  | .obj fs =>
    match fs.lookup "type" with
    | some (.str tag) =>
      if tag = "github" then do
        let owner ← reqStr fs "owner"
        let repo ← reqStr fs "repo"
        let description ← optField fs "description"
        let attrs ← deserializeAttrs fs
        pure (.github owner repo description attrs)
      else if tag = "gitlab" then do
        let owner ← reqStr fs "owner"
        let repo ← reqStr fs "repo"
        let attrs ← deserializeAttrs fs
        pure (.gitlab owner repo attrs)
      else if tag = "sourcehut" then do
        let owner ← reqStr fs "owner"
        let repo ← reqStr fs "repo"
        let attrs ← deserializeAttrs fs
        pure (.sourcehut owner repo attrs)
      else if tag = "git" then do
        let url ← reqStr fs "url"
        let attrs ← deserializeAttrs fs
        pure (.git url attrs)
      else if tag = "nixpkgs" then do
        let channel ← reqStr fs "channel"
        let git_ref ← reqStr fs "git_ref"
        pure (.nixpkgs ⟨channel, git_ref⟩)
      else .error ("unknown variant tag: " ++ tag)
    | some _ => .error "variant tag is not a string"
    | none => .error "missing variant tag"
  | _ => .error "expected an object"

/-- Modelled from the spec: the bare-array form parsed by the non-TOML
branch — a sequence of `Source` values. -/
def deserializeSources (j : Json) : Except String (List Source) :=
  match j with
  | .arr elems => elems.mapM deserializeSource
  | _ => .error "expected an array"

/-- Split a character list at every occurrence of `c` (the groups do not
contain `c`; `n` separators yield `n + 1` groups). -/
def splitOnChar (c : Char) : List Char → List (List Char)
  | [] => [[]]
  | x :: xs =>
    match splitOnChar c xs with
    | [] => [[]]
    | g :: gs => if x = c then [] :: g :: gs else (x :: g) :: gs

/-- Modelled from the spec: the final path component, as Rust
`Path::file_name` computes it for ordinary file paths (the last
nonempty `/`-separated component). -/
def fileName (p : String) : List Char :=
  ((splitOnChar '/' p.data).filter (fun c => c ≠ [])).getLastD []

/-- Modelled from the spec: Rust `Path::extension` — the portion of the
file name after its final `.`; `none` when the file name has no `.` or
only a leading one. -/
def extension (p : String) : Option String :=
  match splitOnChar '.' (fileName p) with
  | [] => none
  | [_] => none
  | [[], _] => none
  | parts => some ⟨parts.getLastD []⟩

/-- The two failure classes of `read_sources_file`: an unreadable file,
or a malformed document. -/
inductive SourcesError where
  | ioError (msg : String)
  | parseError (msg : String)
deriving DecidableEq, Repr

/-- Embedding of `Source::read_sources_file`.  The file system is
modelled as an explicit map from path to contents (`none` meaning the
file cannot be opened or read), and the external text parsers
(`toml::from_str`, `serde_json::from_str`, not part of this
repository's source) as explicit function parameters; the dispatch on
`path.extension() == Some(OsStr::new("toml"))` and the propagation of
both error classes are the code under verification. -/
def read_sources_file (tomlFromStr : String → Except String TomlDocument)
    (jsonFromStr : String → Except String (List Source))
    (fileContents : String → Option String) (path : String) :
    Except SourcesError (List Source) :=
  match fileContents path with
  | none => .error (.ioError ("could not open or read: " ++ path))
  | some buf =>
    if extension path == some "toml" then
      match tomlFromStr buf with
      | .ok document => .ok document.sources
      | .error e => .error (.parseError e)
    else
      match jsonFromStr buf with
      | .ok sources => .ok sources
      | .error e => .error (.parseError e)

/-- Modelled from the spec: the single outbound HTTP request of the
channel resolver (method GET, fixed client identification string,
optional bearer credential). -/
structure HttpRequest where
  url : String
  userAgent : String
  bearer : Option String
deriving DecidableEq, Repr

/-- Modelled from the spec: the HTTP response the resolver receives —
a status code and a body text. -/
structure HttpResponse where
  status : Nat
  body : String
deriving DecidableEq, Repr

/-- Rust local `struct Commit { sha }` inside `Source::nixpkgs`. -/
structure Commit where
  sha : String
deriving DecidableEq, Repr

/-- Rust local `struct ApiResult { commit }` inside `Source::nixpkgs`. -/
structure ApiResult where
  commit : Commit
deriving DecidableEq, Repr

/-- Modelled from the spec: the request `Source::nixpkgs` builds.  The
`GITHUB_TOKEN` environment variable is threaded in as an explicit
optional credential, per the spec's design note. -/
def nixpkgsRequest (githubToken : Option String) (channel : String) : HttpRequest :=
  { url := "https://api.github.com/repos/nixos/nixpkgs/branches/nixos-" ++ channel
    userAgent := "nixos-search"
    bearer := githubToken }

/-- Modelled from the spec: `reqwest::StatusCode::is_success`, true for
the 2xx range. -/
def statusIsSuccess (status : Nat) : Bool := 200 ≤ status && status < 300

/-- Modelled from the spec: the serde extraction of `ApiResult` from the
decoded response document, at path `commit.sha`. -/
def extractApiResult (j : Json) : Except String ApiResult :=
  match j with
  | .obj fs =>
    match fs.lookup "commit" with
    | some (.obj cs) =>
      match cs.lookup "sha" with
      | some (.str sha) => .ok ⟨⟨sha⟩⟩
      | some _ => .error "field sha is not a string"
      | none => .error "missing field sha"
    | some _ => .error "field commit is not an object"
    | none => .error "missing field commit"
  | _ => .error "expected an object"

/-- The failure classes of the channel resolver: a non-success response
(carrying its status and body text), or a body decode failure. -/
inductive NixpkgsError where
  | githubError (status : Nat) (body : String)
  | decodeError (msg : String)
deriving DecidableEq, Repr

/-- Embedding of the response handling of `Source::nixpkgs`: the
transport and the JSON text decoding (reqwest / serde_json, external to
this repository's source) are modelled by the explicit `response` value
and the `decodeJson` parameter; the branch on `status().is_success()`,
the error carrying status and body text, and the construction of
`Nixpkgs { channel, git_ref: sha }` are the code under verification. -/
def Source.nixpkgsResolve (decodeJson : String → Except String Json)
    (channel : String) (response : HttpResponse) : Except NixpkgsError Nixpkgs :=
  if !statusIsSuccess response.status then
    .error (.githubError response.status response.body)
  else
    match decodeJson response.body with
    | .error e => .error (.decodeError e)
    | .ok j =>
      match extractApiResult j with
      | .error e => .error (.decodeError e)
      | .ok result => .ok { channel := channel, git_ref := result.commit.sha }

/-- A `Bool` known to be `false` is not `true`. -/
theorem ne_true_of_false {c : Bool} (hb : c = false) : ¬ (c = true) := by
  simp [hb]

/-- `countQ` is additive across string append. -/
theorem countQ_append (s t : String) : countQ (s ++ t) = countQ s + countQ t := by
  simp [countQ, String.data_append, List.count_append]

/-- Dropping one character from `"?" ++ s` yields `s`. -/
theorem drop_one_qmark (s : String) : ("?" ++ s).drop 1 = s := by
  rw [String.drop_eq]
  rfl

/-- A string starting with `?` is not empty. -/
theorem qmark_isEmpty (s : String) : ("?" ++ s).isEmpty = false := by
  have hne : ("?" ++ s) ≠ "" := by
    intro h
    have h2 : "?".data ++ s.data = "".data := by
      rw [← String.data_append, h]
    have h3 := (List.append_eq_nil.mp h2).1
    exact absurd h3 (by decide)
  cases h : ("?" ++ s).isEmpty
  · rfl
  · exact absurd ((String.isEmpty_iff _).mp h) hne

/-- The join loop of `String.intercalate` with separator `&` introduces
no `?` when the accumulator and elements have none. -/
theorem countQ_intercalate_go (acc : String) :
    ∀ l : List String, (∀ p ∈ l, countQ p = 0) →
      countQ (String.intercalate.go acc "&" l) = countQ acc
  | [], _ => by simp [String.intercalate.go]
  | p :: ps, h => by
    rw [String.intercalate.go]
    rw [countQ_intercalate_go (acc ++ "&" ++ p) ps
      (fun q hq => h q (List.mem_cons_of_mem _ hq))]
    have hp := h p (List.mem_cons_self _ _)
    have hamp : countQ "&" = 0 := by decide
    simp [countQ_append, hp, hamp]

/-- Joining `?`-free strings with `&` yields a `?`-free string. -/
theorem countQ_intercalate (l : List String) (h : ∀ p ∈ l, countQ p = 0) :
    countQ (String.intercalate "&" l) = 0 := by
  cases l with
  | nil => decide
  | cons p ps =>
    rw [String.intercalate]
    rw [countQ_intercalate_go p ps (fun q hq => h q (List.mem_cons_of_mem _ hq))]
    exact h p (List.mem_cons_self _ _)

/-- When the attribute values contain no `?`, neither does any emitted
`key=value` pair. -/
theorem specQueryPairs_countQ (a : FlakeRefAttrs) (h : valuesNoQ a = true) :
    ∀ p ∈ specQueryPairs a, countQ p = 0 := by
  simp only [valuesNoQ, Bool.and_eq_true] at h
  obtain ⟨⟨⟨⟨⟨h1, h2⟩, h3⟩, h4⟩, h5⟩, h6⟩ := h
  intro p hp
  simp only [specQueryPairs, List.mem_filterMap, id, List.mem_cons,
    List.mem_singleton, List.not_mem_nil, or_false] at hp
  obtain ⟨o, ho, hop⟩ := hp
  rcases ho with rfl | rfl | rfl | rfl | rfl | rfl <;>
    rw [Option.map_eq_some'] at hop <;> obtain ⟨v, hv, rfl⟩ := hop <;>
    simp [hv, Option.all_some, beq_iff_eq] at h1 h2 h3 h4 h5 h6 <;>
    simp_all [countQ_append] <;> decide

/-- `query_string` in terms of the spec's pair list. -/
theorem query_string_eq (a : FlakeRefAttrs) :
    a.query_string =
      if specQueryPairs a = [] then ""
      else "?" ++ String.intercalate "&" (specQueryPairs a) := by
  obtain ⟨r, v, d, n, c, m⟩ := a
  rcases r <;> rcases v <;> rcases d <;> rcases n <;> rcases c <;> rcases m <;> rfl

/-- `append_to` in terms of the spec's pair list. -/
theorem append_to_eq (a : FlakeRefAttrs) (base : String) :
    a.append_to base =
      if specQueryPairs a = [] then base
      else if base.data.contains '?' then
        base ++ "&" ++ String.intercalate "&" (specQueryPairs a)
      else base ++ ("?" ++ String.intercalate "&" (specQueryPairs a)) := by
  by_cases hp : specQueryPairs a = []
  · have hq : a.query_string = "" := by rw [query_string_eq, if_pos hp]
    rw [if_pos hp]
    simp only [FlakeRefAttrs.append_to, hq]
    rfl
  · have hq : a.query_string = "?" ++ String.intercalate "&" (specQueryPairs a) := by
      rw [query_string_eq, if_neg hp]
    rw [if_neg hp]
    simp only [FlakeRefAttrs.append_to, hq, qmark_isEmpty, Bool.false_eq_true,
      if_false, drop_one_qmark]

/-- A string whose character list does not contain `?` has no `?`. -/
theorem countQ_of_not_contains (s : String) (h : s.data.contains '?' = false) :
    countQ s = 0 := by
  rw [countQ, List.count_eq_zero]
  intro hmem
  have h2 : s.data.contains '?' = true := by
    simpa [List.contains] using List.elem_eq_true_of_mem hmem
  rw [h2] at h
  cases h

/-- Association-list lookup skips a head entry with a different key. -/
theorem lookup_cons_ne {k a : String} {v : Json} {l : List (String × Json)}
    (h : k ≠ a) : List.lookup k ((a, v) :: l) = List.lookup k l := by
  simp [List.lookup, beq_eq_false_iff_ne.mpr h]

/-- Association-list lookup finds a head entry with the same key. -/
theorem lookup_cons_self {k : String} {v : Json} {l : List (String × Json)} :
    List.lookup k ((k, v) :: l) = some v := by
  simp [List.lookup]

/-- Association-list lookup skips a leading segment that lacks the key. -/
theorem lookup_append_not_mem {k : String} {pre : List (String × Json)}
    (h : k ∉ pre.map Prod.fst) (rest : List (String × Json)) :
    List.lookup k (pre ++ rest) = List.lookup k rest := by
  induction pre with
  | nil => rfl
  | cons x pre ih =>
    simp only [List.map_cons, List.mem_cons, not_or] at h
    rw [List.cons_append, lookup_cons_ne (by exact h.1)]
    exact ih h.2

/-- Association-list lookup of an absent key is `none`. -/
theorem lookup_not_mem {k : String} {l : List (String × Json)}
    (h : k ∉ l.map Prod.fst) : List.lookup k l = none := by
  induction l with
  | nil => rfl
  | cons x l ih =>
    simp only [List.map_cons, List.mem_cons, not_or] at h
    rw [lookup_cons_ne (by exact h.1)]
    exact ih h.2

/-- Renaming one entry's key between two spellings, both different from
`k`, does not change the lookup of `k`. -/
theorem lookup_subst (k a b : String) (v : Json) (pre post : List (String × Json))
    (hka : k ≠ a) (hkb : k ≠ b) :
    List.lookup k (pre ++ (a, v) :: post) = List.lookup k (pre ++ (b, v) :: post) := by
  induction pre with
  | nil => rw [List.nil_append, List.nil_append, lookup_cons_ne hka, lookup_cons_ne hkb]
  | cons x pre ih =>
    by_cases hx : k = x.1
    · subst hx
      rw [List.cons_append, List.cons_append]
      cases x with
      | mk x1 x2 => rw [lookup_cons_self, lookup_cons_self]
    · rw [List.cons_append, List.cons_append]
      cases x with
      | mk x1 x2 =>
        rw [lookup_cons_ne hx, lookup_cons_ne hx]
        exact ih

/-- Substituting the alias spelling `git_ref` for the primary spelling
`ref` of the one such entry leaves `deserializeAttrs` unchanged. -/
theorem deserializeAttrs_ref_alias (pre post : List (String × Json)) (v : Json)
    (h1 : "ref" ∉ pre.map Prod.fst) (h2 : "git_ref" ∉ pre.map Prod.fst)
    (h3 : "ref" ∉ post.map Prod.fst) :
    deserializeAttrs (pre ++ ("git_ref", v) :: post)
      = deserializeAttrs (pre ++ ("ref", v) :: post) := by
  have lref1 : List.lookup "ref" (pre ++ ("git_ref", v) :: post) = none := by
    rw [lookup_append_not_mem h1, lookup_cons_ne (by decide)]
    exact lookup_not_mem h3
  have lgit1 : List.lookup "git_ref" (pre ++ ("git_ref", v) :: post) = some v := by
    rw [lookup_append_not_mem h2, lookup_cons_self]
  have lref2 : List.lookup "ref" (pre ++ ("ref", v) :: post) = some v := by
    rw [lookup_append_not_mem h1, lookup_cons_self]
  have e1 : optFieldAlias (pre ++ ("git_ref", v) :: post) "ref" "git_ref"
      = optFieldAlias (pre ++ ("ref", v) :: post) "ref" "git_ref" := by
    unfold optFieldAlias
    rw [lref1, lgit1, lref2]
    rfl
  have e2 : optFieldAlias (pre ++ ("git_ref", v) :: post) "rev" "hash"
      = optFieldAlias (pre ++ ("ref", v) :: post) "rev" "hash" := by
    unfold optFieldAlias
    rw [lookup_subst "rev" "git_ref" "ref" v pre post (by decide) (by decide),
      lookup_subst "hash" "git_ref" "ref" v pre post (by decide) (by decide)]
  have e3 : optField (pre ++ ("git_ref", v) :: post) "dir"
      = optField (pre ++ ("ref", v) :: post) "dir" := by
    unfold optField
    rw [lookup_subst "dir" "git_ref" "ref" v pre post (by decide) (by decide)]
  have e4 : optField (pre ++ ("git_ref", v) :: post) "narHash"
      = optField (pre ++ ("ref", v) :: post) "narHash" := by
    unfold optField
    rw [lookup_subst "narHash" "git_ref" "ref" v pre post (by decide) (by decide)]
  have e5 : optFieldNum (pre ++ ("git_ref", v) :: post) "revCount"
      = optFieldNum (pre ++ ("ref", v) :: post) "revCount" := by
    unfold optFieldNum
    rw [lookup_subst "revCount" "git_ref" "ref" v pre post (by decide) (by decide)]
  have e6 : optFieldNum (pre ++ ("git_ref", v) :: post) "lastModified"
      = optFieldNum (pre ++ ("ref", v) :: post) "lastModified" := by
    unfold optFieldNum
    rw [lookup_subst "lastModified" "git_ref" "ref" v pre post (by decide) (by decide)]
  unfold deserializeAttrs
  rw [e1, e2, e3, e4, e5, e6]

/-- Substituting the alias spelling `hash` for the primary spelling
`rev` of the one such entry leaves `deserializeAttrs` unchanged. -/
theorem deserializeAttrs_rev_alias (pre post : List (String × Json)) (v : Json)
    (h1 : "rev" ∉ pre.map Prod.fst) (h2 : "hash" ∉ pre.map Prod.fst)
    (h3 : "rev" ∉ post.map Prod.fst) :
    deserializeAttrs (pre ++ ("hash", v) :: post)
      = deserializeAttrs (pre ++ ("rev", v) :: post) := by
  have lrev1 : List.lookup "rev" (pre ++ ("hash", v) :: post) = none := by
    rw [lookup_append_not_mem h1, lookup_cons_ne (by decide)]
    exact lookup_not_mem h3
  have lhash1 : List.lookup "hash" (pre ++ ("hash", v) :: post) = some v := by
    rw [lookup_append_not_mem h2, lookup_cons_self]
  have lrev2 : List.lookup "rev" (pre ++ ("rev", v) :: post) = some v := by
    rw [lookup_append_not_mem h1, lookup_cons_self]
  have e1 : optFieldAlias (pre ++ ("hash", v) :: post) "ref" "git_ref"
      = optFieldAlias (pre ++ ("rev", v) :: post) "ref" "git_ref" := by
    unfold optFieldAlias
    rw [lookup_subst "ref" "hash" "rev" v pre post (by decide) (by decide),
      lookup_subst "git_ref" "hash" "rev" v pre post (by decide) (by decide)]
  have e2 : optFieldAlias (pre ++ ("hash", v) :: post) "rev" "hash"
      = optFieldAlias (pre ++ ("rev", v) :: post) "rev" "hash" := by
    unfold optFieldAlias
    rw [lrev1, lhash1, lrev2]
    rfl
  have e3 : optField (pre ++ ("hash", v) :: post) "dir"
      = optField (pre ++ ("rev", v) :: post) "dir" := by
    unfold optField
    rw [lookup_subst "dir" "hash" "rev" v pre post (by decide) (by decide)]
  have e4 : optField (pre ++ ("hash", v) :: post) "narHash"
      = optField (pre ++ ("rev", v) :: post) "narHash" := by
    unfold optField
    rw [lookup_subst "narHash" "hash" "rev" v pre post (by decide) (by decide)]
  have e5 : optFieldNum (pre ++ ("hash", v) :: post) "revCount"
      = optFieldNum (pre ++ ("rev", v) :: post) "revCount" := by
    unfold optFieldNum
    rw [lookup_subst "revCount" "hash" "rev" v pre post (by decide) (by decide)]
  have e6 : optFieldNum (pre ++ ("hash", v) :: post) "lastModified"
      = optFieldNum (pre ++ ("rev", v) :: post) "lastModified" := by
    unfold optFieldNum
    rw [lookup_subst "lastModified" "hash" "rev" v pre post (by decide) (by decide)]
  unfold deserializeAttrs
  rw [e1, e2, e3, e4, e5, e6]

/-- Claim C1: `to_flake_ref` returns the base locator from the variant
table (`github:{owner}/{repo}`, `gitlab:{owner}/{repo}`,
`sourcehut:{owner}/{repo}`, the url for Git) with the attrs appended via
`append_to` in those four cases, while Nixpkgs yields the tarball URL of
its `git_ref` with no attributes applied; including the two
representative examples from the spec. -/
theorem claim_C1 :
    (∀ owner repo description attrs,
      (Source.github owner repo description attrs).to_flake_ref
        = attrs.append_to ("github:" ++ owner ++ "/" ++ repo))
    ∧ (∀ owner repo attrs,
      (Source.gitlab owner repo attrs).to_flake_ref
        = attrs.append_to ("gitlab:" ++ owner ++ "/" ++ repo))
    ∧ (∀ owner repo attrs,
      (Source.sourcehut owner repo attrs).to_flake_ref
        = attrs.append_to ("sourcehut:" ++ owner ++ "/" ++ repo))
    ∧ (∀ url attrs,
      (Source.git url attrs).to_flake_ref = attrs.append_to url)
    ∧ (∀ channel git_ref,
      (Source.nixpkgs ⟨channel, git_ref⟩).to_flake_ref
        = "https://api.github.com/repos/NixOS/nixpkgs/tarball/" ++ git_ref)
    ∧ (Source.github "a" "b" none
        { ref := some "main" }).to_flake_ref = "github:a/b?ref=main"
    ∧ (Source.git "https://x/y.git" {}).to_flake_ref = "https://x/y.git" := by
  refine ⟨fun _ _ _ _ => rfl, fun _ _ _ => rfl, fun _ _ _ => rfl,
    fun _ _ => rfl, fun _ _ => rfl, by decide, by decide⟩

/-- Claim C2: `query_string` emits one `key=value` pair per present
field in the fixed order ref, rev, dir, narHash, revCount,
lastModified, omits absent fields, joins the present pairs with `&`
behind a single leading `?`, and returns the empty string when all six
fields are absent; values are interpolated verbatim. -/
theorem claim_C2 :
    (∀ a : FlakeRefAttrs,
      a.query_string =
        if specQueryPairs a = [] then ""
        else "?" ++ String.intercalate "&" (specQueryPairs a))
    ∧ FlakeRefAttrs.query_string {} = "" :=
  ⟨query_string_eq, rfl⟩

/-- Claim C3: `append_to` returns the base unchanged when no attribute
is present; otherwise it appends the pairs after `&` when the base
already has a `?` and after the query's own single leading `?` when it
does not — so a `?`-free base with `?`-free attribute values yields a
result with at most one `?`, and the appended segment carries exactly
one separator. -/
theorem claim_C3 : ∀ (a : FlakeRefAttrs) (base : String),
    (specQueryPairs a = [] → a.append_to base = base)
    ∧ (specQueryPairs a ≠ [] → base.data.contains '?' = true →
        a.append_to base
          = base ++ "&" ++ String.intercalate "&" (specQueryPairs a))
    ∧ (specQueryPairs a ≠ [] → base.data.contains '?' = false →
        a.append_to base
          = base ++ ("?" ++ String.intercalate "&" (specQueryPairs a)))
    ∧ (base.data.contains '?' = false → valuesNoQ a = true →
        countQ (a.append_to base) ≤ 1) := by
  intro a base
  refine ⟨fun hp => ?_, fun hp hb => ?_, fun hp hb => ?_, fun hb hv => ?_⟩
  · rw [append_to_eq, if_pos hp]
  · rw [append_to_eq, if_neg hp, if_pos hb]
  · rw [append_to_eq, if_neg hp, if_neg (ne_true_of_false hb)]
  · have hbz := countQ_of_not_contains base hb
    by_cases hp : specQueryPairs a = []
    · rw [append_to_eq, if_pos hp]
      simp [hbz]
    · have hI := countQ_intercalate _ (specQueryPairs_countQ a hv)
      have hq1 : countQ "?" = 1 := by decide
      rw [append_to_eq, if_neg hp, if_neg (ne_true_of_false hb)]
      simp [countQ_append, hbz, hI, hq1]

/-- Witness for claim C3 at concrete inputs: empty attrs leave the base
unchanged; a present ref appends after `&` to a base with `?` and after
`?` to a base without; the latter result has at most one `?`. -/
theorem claim_C3_witness :
    FlakeRefAttrs.append_to {} "base" = "base"
    ∧ FlakeRefAttrs.append_to { ref := some "main" } "u?x"
        = "u?x" ++ "&" ++ String.intercalate "&" (specQueryPairs { ref := some "main" })
    ∧ FlakeRefAttrs.append_to { ref := some "main" } "github:a/b"
        = "github:a/b" ++ ("?" ++ String.intercalate "&" (specQueryPairs { ref := some "main" }))
    ∧ countQ (FlakeRefAttrs.append_to { ref := some "main" } "github:a/b") ≤ 1 :=
  ⟨(claim_C3 {} "base").1 (by decide),
   (claim_C3 { ref := some "main" } "u?x").2.1 (by decide) (by decide),
   (claim_C3 { ref := some "main" } "github:a/b").2.2.1 (by decide) (by decide),
   (claim_C3 { ref := some "main" } "github:a/b").2.2.2 (by decide) (by decide)⟩

/-- Claim C4: serializing any `Source` to its stored tagged-object form
and re-parsing yields an equal value, for every variant. -/
theorem claim_C4 (s : Source) : deserializeSource s.serialize = .ok s := by
  cases s with
  | github owner repo description attrs =>
    obtain ⟨r, v, d, n, c, m⟩ := attrs
    rcases description <;> rcases r <;> rcases v <;> rcases d <;> rcases n <;>
      rcases c <;> rcases m <;> rfl
  | gitlab owner repo attrs =>
    obtain ⟨r, v, d, n, c, m⟩ := attrs
    rcases r <;> rcases v <;> rcases d <;> rcases n <;> rcases c <;> rcases m <;> rfl
  | sourcehut owner repo attrs =>
    obtain ⟨r, v, d, n, c, m⟩ := attrs
    rcases r <;> rcases v <;> rcases d <;> rcases n <;> rcases c <;> rcases m <;> rfl
  | git url attrs =>
    obtain ⟨r, v, d, n, c, m⟩ := attrs
    rcases r <;> rcases v <;> rcases d <;> rcases n <;> rcases c <;> rcases m <;> rfl
  | nixpkgs np => rfl

/-- Witness for claim C4 at a concrete source. -/
theorem claim_C4_witness :
    deserializeSource (Source.github "a" "b" none { ref := some "main" }).serialize
      = .ok (Source.github "a" "b" none { ref := some "main" }) :=
  claim_C4 (Source.github "a" "b" none { ref := some "main" })

/-- Claim C5: two input documents identical except for substituting the
alias spelling (`git_ref` for `ref`, `hash` for `rev`) of such a field
parse to the same `FlakeRefAttrs`. -/
theorem claim_C5 : ∀ (pre post : List (String × Json)) (v : Json),
    ("ref" ∉ pre.map Prod.fst → "git_ref" ∉ pre.map Prod.fst →
     "ref" ∉ post.map Prod.fst →
      deserializeAttrs (pre ++ ("git_ref", v) :: post)
        = deserializeAttrs (pre ++ ("ref", v) :: post))
    ∧ ("rev" ∉ pre.map Prod.fst → "hash" ∉ pre.map Prod.fst →
       "rev" ∉ post.map Prod.fst →
      deserializeAttrs (pre ++ ("hash", v) :: post)
        = deserializeAttrs (pre ++ ("rev", v) :: post)) :=
  fun pre post v =>
    ⟨fun h1 h2 h3 => deserializeAttrs_ref_alias pre post v h1 h2 h3,
     fun h1 h2 h3 => deserializeAttrs_rev_alias pre post v h1 h2 h3⟩

/-- Witness for claim C5 at concrete one-field documents. -/
theorem claim_C5_witness :
    deserializeAttrs [("git_ref", Json.str "main")]
      = deserializeAttrs [("ref", Json.str "main")]
    ∧ deserializeAttrs [("hash", Json.str "abc123")]
      = deserializeAttrs [("rev", Json.str "abc123")] :=
  ⟨(claim_C5 [] [] (Json.str "main")).1 (by decide) (by decide) (by decide),
   (claim_C5 [] [] (Json.str "abc123")).2 (by decide) (by decide) (by decide)⟩

/-- Claim C6: `read_sources_file` fails with an I/O error on an
unreadable file; otherwise it dispatches purely on the file extension —
exactly `toml` parses the structured document and returns its `sources`
field, any other extension parses the content as a bare sequence — with
parse failures of either branch surfaced as parse errors, and a variant
tag outside the closed set rejected by the `Source` parser. -/
theorem claim_C6 : ∀ (tomlFromStr : String → Except String TomlDocument)
    (jsonFromStr : String → Except String (List Source))
    (fileContents : String → Option String) (path : String),
    (fileContents path = none →
      read_sources_file tomlFromStr jsonFromStr fileContents path
        = .error (.ioError ("could not open or read: " ++ path)))
    ∧ (∀ buf, fileContents path = some buf → extension path = some "toml" →
        read_sources_file tomlFromStr jsonFromStr fileContents path
          = match tomlFromStr buf with
            | .ok document => .ok document.sources
            | .error e => .error (.parseError e))
    ∧ (∀ buf, fileContents path = some buf → extension path ≠ some "toml" →
        read_sources_file tomlFromStr jsonFromStr fileContents path
          = match jsonFromStr buf with
            | .ok sources => .ok sources
            | .error e => .error (.parseError e))
    ∧ (∀ tag, tag ∉ (["github", "gitlab", "sourcehut", "git", "nixpkgs"] : List String) →
        ∀ fs, List.lookup "type" fs = some (Json.str tag) →
          deserializeSource (Json.obj fs) = .error ("unknown variant tag: " ++ tag))
    ∧ deserializeSource (Json.obj [("type", Json.str "github")])
        = .error ("missing field: owner") := by
  intro tomlFromStr jsonFromStr fileContents path
  refine ⟨fun h => ?_, fun buf hfc hext => ?_, fun buf hfc hext => ?_,
    fun tag ht fs hl => ?_, rfl⟩
  · unfold read_sources_file
    rw [h]
  · unfold read_sources_file
    rw [hfc, hext]
    rfl
  · unfold read_sources_file
    rw [hfc]
    simp [hext]
  · simp only [List.mem_cons, List.not_mem_nil, or_false, not_or] at ht
    simp only [deserializeSource]
    rw [hl]
    simp only [if_neg ht.1, if_neg ht.2.1, if_neg ht.2.2.1, if_neg ht.2.2.2.1,
      if_neg ht.2.2.2.2]

/-- Witness for claim C6 at concrete parsers, file systems and paths:
an unreadable file, a `.toml` path, a `.json` path with a failing
parser, and an unknown variant tag. -/
theorem claim_C6_witness :
    read_sources_file (fun _ => Except.ok ⟨[]⟩) (fun _ => Except.error "bad json")
        (fun _ => none) "s.toml"
      = Except.error (SourcesError.ioError ("could not open or read: " ++ "s.toml"))
    ∧ read_sources_file (fun _ => Except.ok ⟨[]⟩) (fun _ => Except.error "bad json")
        (fun _ => some "c") "s.toml"
      = Except.ok []
    ∧ read_sources_file (fun _ => Except.ok ⟨[]⟩) (fun _ => Except.error "bad json")
        (fun _ => some "c") "s.json"
      = Except.error (SourcesError.parseError "bad json")
    ∧ deserializeSource (Json.obj [("type", Json.str "svn")])
      = Except.error ("unknown variant tag: " ++ "svn") :=
  ⟨(claim_C6 (fun _ => Except.ok ⟨[]⟩) (fun _ => Except.error "bad json")
      (fun _ => none) "s.toml").1 rfl,
   (claim_C6 (fun _ => Except.ok ⟨[]⟩) (fun _ => Except.error "bad json")
      (fun _ => some "c") "s.toml").2.1 "c" rfl (by decide),
   (claim_C6 (fun _ => Except.ok ⟨[]⟩) (fun _ => Except.error "bad json")
      (fun _ => some "c") "s.json").2.2.1 "c" rfl (by decide),
   (claim_C6 (fun _ => Except.ok ⟨[]⟩) (fun _ => Except.error "bad json")
      (fun _ => some "c") "s.json").2.2.2.1 "svn" (by decide)
     [("type", Json.str "svn")] rfl⟩

/-- Claim C7: the resolver's single request addresses the branch-lookup
URL for `nixos-{channel}` with the fixed client identification string
and the optional bearer credential passed through; a success response
whose decoded body has a string at `commit.sha` yields
`Nixpkgs { channel, git_ref: sha }` with channel unchanged — e.g. a body
with sha `deadbeef` for channel `unstable`. -/
theorem claim_C7 : ∀ (githubToken : Option String) (channel : String),
    ((nixpkgsRequest githubToken channel).url
        = "https://api.github.com/repos/nixos/nixpkgs/branches/nixos-" ++ channel
      ∧ (nixpkgsRequest githubToken channel).bearer = githubToken
      ∧ (nixpkgsRequest githubToken channel).userAgent = "nixos-search")
    ∧ (∀ (decodeJson : String → Except String Json) (response : HttpResponse)
        (j : Json) (sha : String),
        statusIsSuccess response.status = true →
        decodeJson response.body = Except.ok j →
        extractApiResult j = Except.ok ⟨⟨sha⟩⟩ →
        Source.nixpkgsResolve decodeJson channel response
          = Except.ok { channel := channel, git_ref := sha })
    ∧ Source.nixpkgsResolve
        (fun _ => Except.ok (Json.obj [("commit", Json.obj [("sha", Json.str "deadbeef")])]))
        "unstable" ⟨200, "raw body"⟩
        = Except.ok { channel := "unstable", git_ref := "deadbeef" } := by
  intro githubToken channel
  refine ⟨⟨rfl, rfl, rfl⟩, fun decodeJson response j sha hs hd he => ?_, rfl⟩
  unfold Source.nixpkgsResolve
  simp [hs, hd, he]

/-- Witness for claim C7 at a concrete token, channel and response. -/
theorem claim_C7_witness :
    (nixpkgsRequest (some "tok") "unstable").url
        = "https://api.github.com/repos/nixos/nixpkgs/branches/nixos-" ++ "unstable"
    ∧ Source.nixpkgsResolve
        (fun _ => Except.ok (Json.obj [("commit", Json.obj [("sha", Json.str "deadbeef")])]))
        "unstable" ⟨200, "raw body"⟩
        = Except.ok { channel := "unstable", git_ref := "deadbeef" } :=
  ⟨(claim_C7 (some "tok") "unstable").1.1,
   (claim_C7 (some "tok") "unstable").2.1
     (fun _ => Except.ok (Json.obj [("commit", Json.obj [("sha", Json.str "deadbeef")])]))
     ⟨200, "raw body"⟩ (Json.obj [("commit", Json.obj [("sha", Json.str "deadbeef")])])
     "deadbeef" (by decide) rfl rfl⟩

/-- Claim C8: a non-success response makes the resolver fail with an
error carrying the status code and the body text, returning no value;
a success response whose body fails to decode, or decodes without a
string at `commit.sha`, fails with the decode error. -/
theorem claim_C8 : ∀ (decodeJson : String → Except String Json)
    (channel : String) (response : HttpResponse),
    (statusIsSuccess response.status = false →
      Source.nixpkgsResolve decodeJson channel response
        = Except.error (.githubError response.status response.body))
    ∧ (∀ e, statusIsSuccess response.status = true →
        decodeJson response.body = Except.error e →
        Source.nixpkgsResolve decodeJson channel response
          = Except.error (.decodeError e))
    ∧ (∀ j e, statusIsSuccess response.status = true →
        decodeJson response.body = Except.ok j →
        extractApiResult j = Except.error e →
        Source.nixpkgsResolve decodeJson channel response
          = Except.error (.decodeError e)) := by
  intro decodeJson channel response
  refine ⟨fun hs => ?_, fun e hs hd => ?_, fun j e hs hd he => ?_⟩
  · unfold Source.nixpkgsResolve
    simp [hs]
  · unfold Source.nixpkgsResolve
    simp [hs, hd]
  · unfold Source.nixpkgsResolve
    simp [hs, hd, he]

/-- Witness for claim C8: a concrete 404 response carries its status and
body into the error, and a success body without `commit.sha` fails with
the decode error. -/
theorem claim_C8_witness :
    Source.nixpkgsResolve (fun _ => Except.error "no json") "unstable" ⟨404, "Not Found"⟩
      = Except.error (NixpkgsError.githubError 404 "Not Found")
    ∧ Source.nixpkgsResolve (fun _ => Except.ok (Json.obj [])) "unstable" ⟨200, "ok"⟩
      = Except.error (NixpkgsError.decodeError "missing field commit") :=
  ⟨(claim_C8 (fun _ => Except.error "no json") "unstable" ⟨404, "Not Found"⟩).1 (by decide),
   (claim_C8 (fun _ => Except.ok (Json.obj [])) "unstable" ⟨200, "ok"⟩).2.2
     (Json.obj []) "missing field commit" (by decide) rfl rfl⟩

/-- Claim C9: `to_flake_ref` depends only on the fields in the locator
table — not on a Github source's `description` nor on a Nixpkgs
source's `channel`. -/
theorem claim_C9 :
    (∀ owner repo d₁ d₂ attrs,
      (Source.github owner repo d₁ attrs).to_flake_ref
        = (Source.github owner repo d₂ attrs).to_flake_ref)
    ∧ (∀ ch₁ ch₂ git_ref,
      (Source.nixpkgs ⟨ch₁, git_ref⟩).to_flake_ref
        = (Source.nixpkgs ⟨ch₂, git_ref⟩).to_flake_ref) :=
  ⟨fun _ _ _ _ _ => rfl, fun _ _ _ => rfl⟩

/-- Claim C10: the extension dispatch is an exact, case-sensitive
comparison against `toml`: paths with extension `TOML` or `Toml` are
parsed by the non-TOML branch as a bare sequence. -/
theorem claim_C10 : ∀ (tomlFromStr : String → Except String TomlDocument)
    (jsonFromStr : String → Except String (List Source))
    (fileContents : String → Option String) (buf : String),
    (extension "sources.TOML" = some "TOML" ∧ extension "sources.Toml" = some "Toml")
    ∧ (fileContents "sources.TOML" = some buf →
        read_sources_file tomlFromStr jsonFromStr fileContents "sources.TOML"
          = match jsonFromStr buf with
            | .ok sources => .ok sources
            | .error e => .error (.parseError e))
    ∧ (fileContents "sources.Toml" = some buf →
        read_sources_file tomlFromStr jsonFromStr fileContents "sources.Toml"
          = match jsonFromStr buf with
            | .ok sources => .ok sources
            | .error e => .error (.parseError e)) := by
  intro tomlFromStr jsonFromStr fileContents buf
  refine ⟨⟨rfl, rfl⟩, fun hfc => ?_, fun hfc => ?_⟩
  · unfold read_sources_file
    rw [hfc]
    rw [show (extension "sources.TOML" == some "toml") = false by decide]
    rfl
  · unfold read_sources_file
    rw [hfc]
    rw [show (extension "sources.Toml" == some "toml") = false by decide]
    rfl

/-- Witness for claim C10: with a TOML parser that would succeed and a
bare-sequence parser that fails, an uppercase `.TOML` path takes the
failing non-TOML branch. -/
theorem claim_C10_witness :
    read_sources_file (fun _ => Except.ok ⟨[]⟩) (fun _ => Except.error "bad json")
        (fun _ => some "c") "sources.TOML"
      = Except.error (SourcesError.parseError "bad json")
    ∧ read_sources_file (fun _ => Except.ok ⟨[]⟩) (fun _ => Except.error "bad json")
        (fun _ => some "c") "sources.Toml"
      = Except.error (SourcesError.parseError "bad json") :=
  ⟨(claim_C10 (fun _ => Except.ok ⟨[]⟩) (fun _ => Except.error "bad json")
      (fun _ => some "c") "c").2.1 rfl,
   (claim_C10 (fun _ => Except.ok ⟨[]⟩) (fun _ => Except.error "bad json")
      (fun _ => some "c") "c").2.2 rfl⟩
